import Mathlib

/-!
Verification of the SyncOrbit reconciliation layer (`src/server.cjs`,
`src/public/graph.js`) against its natural-language specification.

The shallow embedding models:
* the per-movie filesystem facts the server consults (whisper reference
  artifact, resync directory, movie directory listing), each file carrying
  a name and an mtime in Unix seconds;
* the SQLite `movies` table as a map from movie name to row, with the
  `upsertMovieStmt` upsert;
* the ignore list (`ignore_list.json`) as a list of names;
* the endpoint bodies of `/api/reanalyze/:movie`, `/api/bulk/ignore`,
  `/api/bulk/touch_whisper` and `/api/library` as pure functions of that
  state, with the external `/api/align` collaborator's outcome passed in
  as an explicit argument;
* the natural cubic spline smoother `cubicSpline` from `graph.js`, over ℚ.
-/

namespace SyncOrbit

/-- A directory entry: file name plus mtime (Unix seconds). -/
structure FileEntry where
  name : String
  mtime : Int
  deriving DecidableEq, Repr

/-- The filesystem facts about one movie that `server.cjs` consults:
`whisperRef` is the mtime of `DATA_ROOT/ref/<movie>/ref.srt` when that file
exists; `resyncDir` is the listing of `DATA_ROOT/resync/<movie>` when that
directory exists; `movieDir` is the listing of `MEDIA_ROOT/<movie>` when it
exists. -/
structure MovieFs where
  whisperRef : Option Int
  resyncDir : Option (List FileEntry)
  movieDir : Option (List FileEntry)
  deriving DecidableEq, Repr

/-- One row of the `movies` table (db.cjs schema, columns written by
`upsertMovieStmt`).  The 0/1 integer columns are modelled as `Bool`
(the server only ever writes 0 or 1 and reads them by JS truthiness). -/
structure MovieRow where
  movie : String
  anchor_count : Int
  avg_offset : ℚ
  drift_span : ℚ
  decision : String
  best_reference : String
  reference_path : String
  has_whisper : Bool
  has_ffsubsync : Bool
  fi_mtime : Option Int
  last_analyzed : Option Int
  ignored : Bool
  deriving DecidableEq, Repr

/-- The `movies` table: the canonical per-item State Store. -/
def Store : Type := String → Option MovieRow

/-- `getMovieStmt`: `SELECT * FROM movies WHERE movie = ?`. -/
def Store.get (s : Store) (movie : String) : Option MovieRow := s movie

/-- `upsertMovieStmt`: `INSERT ... ON CONFLICT(movie) DO UPDATE SET ...`
(every listed column is overwritten with the excluded value). -/
def Store.upsert (s : Store) (row : MovieRow) : Store :=
  fun m => if m = row.movie then some row else s m

/-- JS `String.prototype.toLowerCase`, over the character list (the
list-based form of `String.toLower`, which the kernel can evaluate). -/
def strToLower (s : String) : String := ⟨s.data.map Char.toLower⟩

/-- JS `String.prototype.endsWith`, over the character list (the
list-based form of `String.endsWith`). -/
def strEndsWith (s suffix : String) : Bool := suffix.data.isSuffixOf s.data

/-- `hasWhisper(movie)` (server.cjs:91): existence of
`DATA_ROOT/ref/<movie>/ref.srt`. -/
def hasWhisper (fs : MovieFs) : Bool := fs.whisperRef.isSome

/-- `hasFfsubsync(movie)` (server.cjs:79): the resync directory exists and
contains a file whose lowercased name ends in `.synced.srt`. -/
def hasFfsubsync (fs : MovieFs) : Bool :=
  match fs.resyncDir with
  | none => false
  | some files => files.any (fun f => strEndsWith (strToLower f.name) ".synced.srt")

/-- Predicate used by `findFiSubtitleMtime` and the FI-target search
(server.cjs:66, 509): lowercased name ends in `.fi.srt` or `.fin.srt`. -/
def isFiSub (f : FileEntry) : Bool :=
  strEndsWith (strToLower f.name) ".fi.srt" ||
    strEndsWith (strToLower f.name) ".fin.srt"

/-- `findFiSubtitleMtime(movieDir)` (server.cjs:66): mtime of the first
FI subtitle in the directory listing, else null. -/
def findFiSubtitleMtime (files : List FileEntry) : Option Int :=
  (files.find? isFiSub).map (·.mtime)

/-- Predicate for the EN fallback reference search (server.cjs:495):
lowercased name ends in `.en.srt` or `.eng.srt`. -/
def isEnSub (f : FileEntry) : Bool :=
  strEndsWith (strToLower f.name) ".en.srt" ||
    strEndsWith (strToLower f.name) ".eng.srt"

/-- The three reference kinds the server can select. -/
inductive RefType where
  | whisper
  | ffsync
  | en
  deriving DecidableEq, Repr

/-- The string the server stores in `best_reference`. -/
def RefType.str : RefType → String
  | .whisper => "whisper"
  | .ffsync => "ffsync"
  | .en => "en"

/-- Reference selection of `/api/reanalyze/:movie` (server.cjs:467-505):
whisper artifact first; else the first `.synced.srt` file of the resync
directory (note: this filter does not lowercase); else the first EN
subtitle of the movie directory; else none. Returns the kind and the
selected reference path. -/
def selectReference (movie : String) (fs : MovieFs) (files : List FileEntry) :
    Option (RefType × String) :=
  if fs.whisperRef.isSome then
    some (.whisper, "/app/data/ref/" ++ movie ++ "/ref.srt")
  else
    let ffsyncCandidates : List FileEntry :=
      match fs.resyncDir with
      | some rf => rf.filter (fun f => strEndsWith f.name ".synced.srt")
      | none => []
    match ffsyncCandidates.head? with
    | some f => some (.ffsync, "/app/data/resync/" ++ movie ++ "/" ++ f.name)
    | none =>
      match files.find? isEnSub with
      | some f => some (.en, "/app/media/" ++ movie ++ "/" ++ f.name)
      | none => none

/-- JSON body returned by the `/api/align` collaborator, with the fields
`/api/reanalyze` reads (`none` models an absent / null field). -/
structure AlignData where
  error : Option String
  anchor_count : Option Int
  raw_anchor_count : Option Int
  median_offset_sec : Option ℚ
  avg_offset_sec : Option ℚ
  robust_drift_span_sec : Option ℚ
  drift_span_sec : Option ℚ
  raw_drift_span_sec : Option ℚ
  decision : Option String
  deriving DecidableEq, Repr

/-- The fetch response for `/api/align`: HTTP ok flag plus parsed body. -/
structure AlignResponse where
  ok : Bool
  data : AlignData
  deriving DecidableEq, Repr

/-- JS truthiness of an optional string (`data.error` tests). -/
def strTruthy : Option String → Bool
  | none => false
  | some s => !(s == "")

/-- Outcome of the `/api/reanalyze/:movie` request body. -/
inductive ReanalyzeResult where
  | ok (movie : String) (row : MovieRow)
  | err (e : String)
  deriving DecidableEq, Repr

/-- The row built by `/api/reanalyze` on align success (server.cjs:559-581),
including the `ignoredFlag` read-merge from the current store row. -/
def buildRow (movie : String) (fs : MovieFs) (files : List FileEntry)
    (refType : RefType) (refPath : String) (data : AlignData)
    (store : Store) (now : Int) : MovieRow :=
  let ignoredFlag :=
    match store.get movie with
    | some row => row.ignored
    | none => false
  { movie := movie
    anchor_count := (data.anchor_count <|> data.raw_anchor_count).getD 0
    avg_offset := (data.median_offset_sec <|> data.avg_offset_sec).getD 0
    drift_span :=
      (data.robust_drift_span_sec <|> data.drift_span_sec <|>
        data.raw_drift_span_sec).getD 0
    decision := data.decision.getD "unknown"
    best_reference := refType.str
    reference_path := refPath
    has_whisper := hasWhisper fs
    has_ffsubsync := hasFfsubsync fs
    fi_mtime := findFiSubtitleMtime files
    last_analyzed := some now
    ignored := ignoredFlag }

/-- `/api/reanalyze/:movie` (server.cjs:448-604) as a state transformer:
movie-dir check, ignore-list check, reference selection, FI-target check,
align collaborator call (its outcome is the `align` argument:
`Except.error` models a thrown fetch error), then row construction and
upsert on success.  Every failure path returns before the upsert. -/
def reanalyze (movie : String) (fs : MovieFs) (ignoreList : List String)
    (align : Except String AlignResponse) (now : Int) (store : Store) :
    Store × ReanalyzeResult :=
  match fs.movieDir with
  | none => (store, .err "movie_not_found")
  | some files =>
    if movie ∈ ignoreList then (store, .err "ignored")
    else
      match selectReference movie fs files with
      | none => (store, .err "no_english_reference")
      | some (refType, refPath) =>
        match files.find? isFiSub with
        | none => (store, .err "missing_finnish_subtitle")
        | some _ =>
          match align with
          | .error e => (store, .err e)
          | .ok resp =>
            if !resp.ok || strTruthy resp.data.error then
              (store, .err (if strTruthy resp.data.error then
                resp.data.error.getD "" else "align_failed"))
            else
              let row := buildRow movie fs files refType refPath resp.data
                store now
              (store.upsert row, .ok movie row)

/-- Response of `/api/bulk/ignore` (server.cjs:156): only an ok flag and
the new total length of the ignore list — no per-item result array. -/
structure BulkIgnoreResponse where
  ok : Bool
  total : Nat
  deriving DecidableEq, Repr

/-- The ignore-list update of `/api/bulk/ignore` (server.cjs:148-152):
push each requested name not already present. -/
def bulkIgnoreList (movies ignoreList : List String) : List String :=
  movies.foldl (fun acc m => if m ∈ acc then acc else acc ++ [m]) ignoreList

/-- `/api/bulk/ignore` (server.cjs:144-157): update the persisted list and
answer with its total length. -/
def bulkIgnore (movies ignoreList : List String) :
    List String × BulkIgnoreResponse :=
  let newList := bulkIgnoreList movies ignoreList
  (newList, { ok := true, total := newList.length })

/-- One success entry of `/api/bulk/touch_whisper`. -/
structure TouchResult where
  movie : String
  ok : Bool
  updated : String
  deriving DecidableEq, Repr

/-- One error entry of `/api/bulk/touch_whisper`. -/
structure TouchError where
  movie : String
  error : String
  deriving DecidableEq, Repr

/-- The whisper reference path `DATA_ROOT/ref/<movie>/ref.srt`. -/
def whisperRefPath (movie : String) : String :=
  "/app/data/ref/" ++ movie ++ "/ref.srt"

/-- `/api/bulk/touch_whisper` (server.cjs:159-182): per item, if the
whisper reference exists, touch it and record a success; otherwise record
a `Whisper reference missing` error; items are processed independently.
`whisperExists` is the per-movie existence of the whisper artifact. -/
def bulkTouchWhisper (movies : List String) (whisperExists : String → Bool) :
    List TouchResult × List TouchError :=
  movies.foldl
    (fun acc movie =>
      if whisperExists movie then
        (acc.1 ++ [⟨movie, true, whisperRefPath movie⟩], acc.2)
      else
        (acc.1, acc.2 ++ [⟨movie, "Whisper reference missing"⟩]))
    ([], [])

/-- `COALESCE(fi_mtime, 0)`, the sort key of `/api/library`. -/
def sortKey (r : MovieRow) : Int := r.fi_mtime.getD 0

/-- The `ORDER BY COALESCE(fi_mtime, 0) DESC` ordering: `a` may come
before `b` iff `a`'s key is at least `b`'s. -/
def libOrder (a b : MovieRow) : Prop := sortKey b ≤ sortKey a

instance : DecidableRel libOrder := fun a b => by
  unfold libOrder; infer_instance

instance : IsTotal MovieRow libOrder :=
  ⟨fun a b => le_total (sortKey b) (sortKey a)⟩

instance : IsTrans MovieRow libOrder :=
  ⟨fun _ _ _ h h' => le_trans h' h⟩

/-- `/api/library` (server.cjs:606-641): return the table rows sorted by
`COALESCE(fi_mtime, 0) DESC` (modelled as a sort of the row list by
`libOrder`; SQLite guarantees the ordering, not a particular stable
permutation). -/
def libraryRows (rows : List MovieRow) : List MovieRow :=
  List.insertionSort libOrder rows

/-- Priority rank of a reference kind in the spec's tie-break order
`whisper > ffsync > en`. -/
def refPriority : RefType → Nat
  | .whisper => 2
  | .ffsync => 1
  | .en => 0

/-- Modelled from the spec: the Reference Arbiter selection policy of
§4.2 — "prefer the most recently produced valid candidate (newest
reference wins); ties broken by a fixed priority order
whisper > ffsync > en" — over a list of candidates `(kind, produced_at)`.
This policy is absent from the source as a standalone function; it is
written here only to compare against `selectReference`. -/
def newestWins (cands : List (RefType × Int)) : Option RefType :=
  (cands.foldl
    (fun best c =>
      match best with
      | none => some c
      | some b =>
        if b.2 < c.2 ∨ (b.2 = c.2 ∧ refPriority b.1 < refPriority c.1) then
          some c
        else some b)
    none).map (·.1)

/-- The reference candidates available for a movie, with their production
times: the whisper artifact, each `.synced.srt` file of the resync
directory, and the first EN subtitle of the movie directory. -/
def candidatesOf (fs : MovieFs) (files : List FileEntry) :
    List (RefType × Int) :=
  (match fs.whisperRef with
    | some t => [((RefType.whisper : RefType), t)]
    | none => []) ++
  (match fs.resyncDir with
    | some rf =>
      (rf.filter (fun f => strEndsWith f.name ".synced.srt")).map
        (fun f => ((RefType.ffsync : RefType), f.mtime))
    | none => []) ++
  (match files.find? isEnSub with
    | some f => [((RefType.en : RefType), f.mtime)]
    | none => [])

/-! ### Anchor Smoother: `cubicSpline` from `src/public/graph.js`

The JS routine works over float arrays of equal length `n`; the embedding
uses ℚ and list indexing with default 0 (`nthQ`), mirroring each array of
the source (`h`, `alpha`, `l`/`mu`/`z`, `c`, `b`, `d`) as an indexed
function computed by the same recurrences. -/

/-- `l[i]` with JS-style out-of-range reads defaulting to 0. -/
def nthQ (l : List ℚ) (i : ℕ) : ℚ := l.getD i 0

/-- `h[i] = xs[i+1] - xs[i]` (graph.js:109-111). -/
def hDiff (xs : List ℚ) (i : ℕ) : ℚ := nthQ xs (i + 1) - nthQ xs i

/-- `alpha[i]` (graph.js:114-118): set for `1 ≤ i ≤ n-2`, else the fill
value 0.  `a` is `ys`. -/
def alphaCoef (xs ys : List ℚ) (i : ℕ) : ℚ :=
  if 1 ≤ i ∧ i < xs.length - 1 then
    3 / hDiff xs i * (nthQ ys (i + 1) - nthQ ys i) -
      3 / hDiff xs (i - 1) * (nthQ ys i - nthQ ys (i - 1))
  else 0

/-- The forward-elimination triple `(l[i], mu[i], z[i])`
(graph.js:125-137): `l[0]=1, mu[0]=0, z[0]=0`; for `1 ≤ i ≤ n-2` the
tridiagonal recurrence; at `i = n-1` the closing row `l=1, z=0` with `mu`
left at its fill value 0. -/
def lmz (xs ys : List ℚ) : ℕ → ℚ × ℚ × ℚ
  | 0 => (1, 0, 0)
  | i + 1 =>
    if i + 1 < xs.length - 1 then
      let prev := lmz xs ys i
      let li := 2 * (nthQ xs (i + 2) - nthQ xs i) - hDiff xs i * prev.2.1
      (li, hDiff xs (i + 1) / li,
        (alphaCoef xs ys (i + 1) - hDiff xs i * prev.2.2) / li)
    else if i + 1 = xs.length - 1 then (1, 0, 0)
    else (0, 0, 0)

/-- `mu[i]`. -/
def muCoef (xs ys : List ℚ) (i : ℕ) : ℚ := (lmz xs ys i).2.1

/-- `z[i]`. -/
def zCoef (xs ys : List ℚ) (i : ℕ) : ℚ := (lmz xs ys i).2.2

/-- Back substitution for `c` (graph.js:137-140), indexed by distance from
the top: `cAux k = c[n-1-k]`, with `c[n-1] = 0` and
`c[j] = z[j] - mu[j] * c[j+1]`. -/
def cAux (xs ys : List ℚ) : ℕ → ℚ
  | 0 => 0
  | k + 1 =>
    zCoef xs ys (xs.length - 1 - (k + 1)) -
      muCoef xs ys (xs.length - 1 - (k + 1)) * cAux xs ys k

/-- `c[j]`. -/
def cCoef (xs ys : List ℚ) (j : ℕ) : ℚ :=
  if j < xs.length then cAux xs ys (xs.length - 1 - j) else 0

/-- `b[j] = (a[j+1]-a[j])/h[j] - h[j]*(c[j+1]+2c[j])/3` (graph.js:141). -/
def bCoef (xs ys : List ℚ) (j : ℕ) : ℚ :=
  (nthQ ys (j + 1) - nthQ ys j) / hDiff xs j -
    hDiff xs j * (cCoef xs ys (j + 1) + 2 * cCoef xs ys j) / 3

/-- `d[j] = (c[j+1]-c[j])/(3h[j])` (graph.js:142). -/
def dCoef (xs ys : List ℚ) (j : ℕ) : ℚ :=
  (cCoef xs ys (j + 1) - cCoef xs ys j) / (3 * hDiff xs j)

/-- `STEPS = 6` interpolated points per interval (graph.js:149). -/
def STEPS : ℕ := 6

/-- One dense point of interval `[x0, x1]` (graph.js:151-158):
`x = x0 + k*step`, `dx = x - x0`,
`y = a + b*dx + c*dx*dx + d*dx*dx*dx`. -/
def splinePoint (x0 x1 a b c d : ℚ) (k : ℕ) : ℚ × ℚ :=
  let step := (x1 - x0) / STEPS
  let x := x0 + k * step
  let dx := x - x0
  (x, a + b * dx + c * dx * dx + d * dx * dx * dx)

/-- The dense-interval loop (graph.js:150-160): for each consecutive knot
pair `(xs[i], xs[i+1])` emit `STEPS` points of the cubic for interval `i`;
`i` tracks the JS loop index so the coefficient arrays are read at the
same positions. -/
def denseLoop (b c d : ℕ → ℚ) : List ℚ → List ℚ → ℕ → List (ℚ × ℚ)
  | x0 :: x1 :: xr, y0 :: yr, i =>
    (List.range STEPS).map (splinePoint x0 x1 y0 (b i) (c i) (d i)) ++
      denseLoop b c d (x1 :: xr) yr (i + 1)
  | _, _, _ => []

/-- `cubicSpline(xs, ys)` (graph.js:100-167): fewer than 3 points are
returned unchanged; otherwise emit the dense curve plus the final original
sample `(xs[n-1], ys[n-1])`. -/
def cubicSpline (xs ys : List ℚ) : List ℚ × List ℚ :=
  let n := xs.length
  if n < 3 then (xs, ys)
  else
    let pairs :=
      denseLoop (bCoef xs ys) (cCoef xs ys) (dCoef xs ys) xs ys 0 ++
        [(nthQ xs (n - 1), nthQ ys (n - 1))]
    (pairs.map Prod.fst, pairs.map Prod.snd)

/-! ### Theorems -/

/-- C8: For every AnchorSample sequence of length < 3, the smoother
returns the input sequence unchanged. -/
theorem smoother_short_input_unchanged (xs ys : List ℚ)
    (h : xs.length < 3) : cubicSpline xs ys = (xs, ys) := by
  unfold cubicSpline
  simp [h]

/-- Witness for C8 at a concrete two-sample input. -/
theorem smoother_short_input_unchanged_witness :
    cubicSpline [0, 10] [1, 2] = ([0, 10], [1, 2]) :=
  smoother_short_input_unchanged [0, 10] [1, 2] (by decide)

/-- C2: the ignored flag is sticky across a single-item re-analysis: if
the stored record has `ignored = true` before the call, the stored record
still has `ignored = true` after it, whatever the call's outcome. -/
theorem reanalyze_ignored_sticky (movie : String) (fs : MovieFs)
    (ignoreList : List String) (align : Except String AlignResponse)
    (now : Int) (store : Store) (r : MovieRow)
    (hr : store.get movie = some r) (hi : r.ignored = true) :
    (((reanalyze movie fs ignoreList align now store).1).get movie).map
      (·.ignored) = some true := by
  simp only [Store.get] at hr
  unfold reanalyze
  split
  · simp [Store.get, hr, hi]
  · split
    · simp [Store.get, hr, hi]
    · split
      · simp [Store.get, hr, hi]
      · split
        · simp [Store.get, hr, hi]
        · split
          · simp [Store.get, hr, hi]
          · split
            · simp [Store.get, hr, hi]
            · simp [Store.upsert, Store.get, buildRow, hr, hi]

/-- Witness for C2 at a concrete ignored record. -/
theorem reanalyze_ignored_sticky_witness :
    (((reanalyze "A"
        ⟨none, some [⟨"x.synced.srt", 20⟩], some [⟨"m.fi.srt", 30⟩]⟩ []
        (.ok ⟨true, ⟨none, none, none, none, none, none, none, none, none⟩⟩)
        100
        (fun m => if m = "A" then
          some ⟨"A", 0, 0, 0, "unknown", "en", "p", false, false, none, none,
            true⟩ else none)).1).get "A").map (·.ignored) = some true :=
  reanalyze_ignored_sticky "A"
    ⟨none, some [⟨"x.synced.srt", 20⟩], some [⟨"m.fi.srt", 30⟩]⟩ []
    (.ok ⟨true, ⟨none, none, none, none, none, none, none, none, none⟩⟩)
    100
    (fun m => if m = "A" then
      some ⟨"A", 0, 0, 0, "unknown", "en", "p", false, false, none, none,
        true⟩ else none)
    ⟨"A", 0, 0, 0, "unknown", "en", "p", false, false, none, none, true⟩
    (by simp [Store.get]) rfl

/-- A re-analysis call either leaves the store untouched or performs
exactly one upsert of the row it also returns. -/
lemma reanalyze_cases (movie : String) (fs : MovieFs)
    (ignoreList : List String) (align : Except String AlignResponse)
    (now : Int) (store : Store) :
    (reanalyze movie fs ignoreList align now store).1 = store ∨
    ∃ row, reanalyze movie fs ignoreList align now store =
      (store.upsert row, ReanalyzeResult.ok movie row) := by
  unfold reanalyze
  split
  · exact Or.inl rfl
  · split
    · exact Or.inl rfl
    · split
      · exact Or.inl rfl
      · split
        · exact Or.inl rfl
        · split
          · exact Or.inl rfl
          · split
            · exact Or.inl rfl
            · exact Or.inr ⟨_, rfl⟩

/-- C4: no clobber on failure — whenever `/api/reanalyze` answers with an
error (missing movie, ignored, no reference, missing FI subtitle, align
collaborator failure), the State Store is unchanged. -/
theorem reanalyze_error_no_clobber (movie : String) (fs : MovieFs)
    (ignoreList : List String) (align : Except String AlignResponse)
    (now : Int) (store : Store) (e : String)
    (h : (reanalyze movie fs ignoreList align now store).2 =
      ReanalyzeResult.err e) :
    (reanalyze movie fs ignoreList align now store).1 = store := by
  rcases reanalyze_cases movie fs ignoreList align now store with
    hc | ⟨row, hc⟩
  · exact hc
  · rw [hc] at h
    simp at h

/-- Witness for C4 at a concrete failing call (missing movie folder). -/
theorem reanalyze_error_no_clobber_witness :
    (reanalyze "A" ⟨none, none, none⟩ [] (.error "boom") 0
      (fun _ => none)).1 = (fun _ => none) :=
  reanalyze_error_no_clobber "A" ⟨none, none, none⟩ [] (.error "boom") 0
    (fun _ => none) "movie_not_found" rfl

/-- C6: re-analysis of an item on the ignore list is rejected with the
`ignored` error, leaves the store untouched, and the answer is the same
for every possible analyzer outcome (the analyzer is never consulted). -/
theorem reanalyze_rejects_ignored (movie : String) (fs : MovieFs)
    (files : List FileEntry) (ignoreList : List String)
    (align : Except String AlignResponse) (now : Int) (store : Store)
    (hdir : fs.movieDir = some files) (hmem : movie ∈ ignoreList) :
    reanalyze movie fs ignoreList align now store =
      (store, ReanalyzeResult.err "ignored") := by
  unfold reanalyze
  rw [hdir]
  simp [hmem]

/-- Witness for C6 at a concrete ignored movie. -/
theorem reanalyze_rejects_ignored_witness :
    reanalyze "A" ⟨some 5, none, some []⟩ ["A"]
      (.ok ⟨true, ⟨none, none, none, none, none, none, none, none, none⟩⟩)
      7 (fun _ => none) = ((fun _ => none : Store),
        ReanalyzeResult.err "ignored") :=
  reanalyze_rejects_ignored "A" ⟨some 5, none, some []⟩ [] ["A"]
    (.ok ⟨true, ⟨none, none, none, none, none, none, none, none, none⟩⟩)
    7 (fun _ => none) rfl (by decide)

/-- C3 counterexample: `has_whisper` is not monotonic under re-analysis.
With a stored record whose `has_whisper` is true but whose whisper
artifact is gone from disk, a successful re-analysis (against the ffsync
reference) rewrites the stored record with `has_whisper = false`. -/
theorem has_whisper_not_monotonic_cex :
    (Store.get (fun m => if m = "A" then
        some ⟨"A", 3, 0, 0, "synced", "whisper", "p", true, false, none,
          none, false⟩ else none) "A").map (·.has_whisper) =
      some true
    ∧ (((reanalyze "A"
        ⟨none, some [⟨"x.synced.srt", 20⟩], some [⟨"m.fi.srt", 30⟩]⟩ []
        (.ok ⟨true, ⟨none, none, none, none, none, none, none, none, none⟩⟩)
        100
        (fun m => if m = "A" then
          some ⟨"A", 3, 0, 0, "synced", "whisper", "p", true, false, none,
            none, false⟩ else none)).1).get "A").map (·.has_whisper) =
      some false := by
  constructor <;> rfl

/-- C3 amended: `has_whisper` survives any re-analysis as long as the
whisper artifact still exists on disk (the upsert recomputes the flag from
artifact existence; no re-analysis path deletes the artifact). -/
theorem reanalyze_has_whisper_preserved (movie : String) (fs : MovieFs)
    (ignoreList : List String) (align : Except String AlignResponse)
    (now : Int) (store : Store) (r : MovieRow)
    (hr : store.get movie = some r) (hw : r.has_whisper = true)
    (hfs : hasWhisper fs = true) :
    (((reanalyze movie fs ignoreList align now store).1).get movie).map
      (·.has_whisper) = some true := by
  simp only [Store.get] at hr
  unfold reanalyze
  split
  · simp [Store.get, hr, hw]
  · split
    · simp [Store.get, hr, hw]
    · split
      · simp [Store.get, hr, hw]
      · split
        · simp [Store.get, hr, hw]
        · split
          · simp [Store.get, hr, hw]
          · split
            · simp [Store.get, hr, hw]
            · simp [Store.upsert, Store.get, buildRow, hfs]

/-- Witness for the amended C3 at a concrete state where the whisper
artifact is still present. -/
theorem reanalyze_has_whisper_preserved_witness :
    (((reanalyze "A" ⟨some 5, none, some [⟨"m.fi.srt", 30⟩]⟩ []
        (.ok ⟨true, ⟨none, none, none, none, none, none, none, none, none⟩⟩)
        100
        (fun m => if m = "A" then
          some ⟨"A", 3, 0, 0, "synced", "whisper", "p", true, false, none,
            none, false⟩ else none)).1).get "A").map (·.has_whisper) =
      some true :=
  reanalyze_has_whisper_preserved "A" ⟨some 5, none, some [⟨"m.fi.srt", 30⟩]⟩
    [] (.ok ⟨true, ⟨none, none, none, none, none, none, none, none, none⟩⟩)
    100
    (fun m => if m = "A" then
      some ⟨"A", 3, 0, 0, "synced", "whisper", "p", true, false, none, none,
        false⟩ else none)
    ⟨"A", 3, 0, 0, "synced", "whisper", "p", true, false, none, none, false⟩
    (by simp [Store.get]) rfl rfl

/-- C1 counterexample: reference arbitration does not prefer the most
recently produced candidate.  With a whisper artifact produced at t=5 and
an ffsync artifact produced at t=20, the newest-wins policy of the spec
selects ffsync, but the code selects whisper. -/
theorem arbitration_not_newest_wins_cex :
    (selectReference "M"
        ⟨some 5, some [⟨"x.synced.srt", 20⟩], some []⟩ []).map Prod.fst =
      some RefType.whisper
    ∧ newestWins
        (candidatesOf ⟨some 5, some [⟨"x.synced.srt", 20⟩], some []⟩ []) =
      some RefType.ffsync
    ∧ (selectReference "M"
        ⟨some 5, some [⟨"x.synced.srt", 20⟩], some []⟩ []).map Prod.fst ≠
      newestWins
        (candidatesOf ⟨some 5, some [⟨"x.synced.srt", 20⟩], some []⟩ []) := by
  refine ⟨rfl, rfl, ?_⟩
  decide

/-- C1 amended: arbitration follows the fixed priority order
whisper > ffsync > en and ignores production times — whenever the whisper
artifact is absent and the resync directory holds a `.synced.srt`
candidate, ffsync is selected, whatever every mtime is; in scenario A
(candidates en at t=10 and ffsync at t=20, no prior record) re-analysis
stores `best_reference = "ffsync"`. -/
theorem arbitration_fixed_priority_scenarioA :
    (∀ (movie : String) (fs : MovieFs) (files rf rest : List FileEntry)
        (f : FileEntry),
      fs.whisperRef = none → fs.resyncDir = some rf →
      rf.filter (fun x => strEndsWith x.name ".synced.srt") = f :: rest →
      (selectReference movie fs files).map Prod.fst = some RefType.ffsync)
    ∧ (((reanalyze "M"
        ⟨none, some [⟨"x.synced.srt", 20⟩],
          some [⟨"m.en.srt", 10⟩, ⟨"m.fi.srt", 30⟩]⟩ []
        (.ok ⟨true, ⟨none, none, none, none, none, none, none, none, none⟩⟩)
        100 (fun _ => none)).1).get "M").map (·.best_reference) =
      some "ffsync" := by
  constructor
  · intro movie fs files rf rest f hw hrd hf
    simp [selectReference, hw, hrd, hf]
  · rfl

/-- Witness instantiating the universal part of the amended C1 at
concrete candidates (whisper absent, one synced ffsync artifact). -/
theorem arbitration_fixed_priority_scenarioA_witness :
    (selectReference "M" ⟨none, some [⟨"x.synced.srt", 20⟩], some []⟩
      []).map Prod.fst = some RefType.ffsync :=
  arbitration_fixed_priority_scenarioA.1 "M"
    ⟨none, some [⟨"x.synced.srt", 20⟩], some []⟩ [] [⟨"x.synced.srt", 20⟩]
    [] ⟨"x.synced.srt", 20⟩ rfl rfl rfl

/-- Every requested name, and every name already present, is in the
ignore list produced by `/api/bulk/ignore`. -/
lemma mem_bulkIgnoreList (movies pre : List String) (m : String)
    (h : m ∈ movies ∨ m ∈ pre) : m ∈ bulkIgnoreList movies pre := by
  induction movies generalizing pre with
  | nil =>
    rcases h with h | h
    · cases h
    · exact h
  | cons a ms ih =>
    show m ∈ bulkIgnoreList ms (if a ∈ pre then pre else pre ++ [a])
    apply ih
    rcases h with h | h
    · rcases List.mem_cons.mp h with rfl | hms
      · right
        split
        · assumption
        · exact List.mem_append.mpr (Or.inr (List.mem_singleton.mpr rfl))
      · exact Or.inl hms
    · right
      split
      · exact h
      · exact List.mem_append.mpr (Or.inl h)

/-- `/api/bulk/ignore` is a no-op when every requested name is already on
the list. -/
lemma bulkIgnoreList_eq_self (movies pre : List String)
    (h : ∀ x ∈ movies, x ∈ pre) : bulkIgnoreList movies pre = pre := by
  induction movies with
  | nil => rfl
  | cons a ms ih =>
    show bulkIgnoreList ms (if a ∈ pre then pre else pre ++ [a]) = pre
    rw [if_pos (h a (List.mem_cons_self a ms))]
    exact ih (fun x hx => h x (List.mem_cons_of_mem a hx))

/-- `/api/bulk/ignore` preserves duplicate-freeness of the list. -/
lemma nodup_bulkIgnoreList (movies pre : List String) (h : pre.Nodup) :
    (bulkIgnoreList movies pre).Nodup := by
  induction movies generalizing pre with
  | nil => exact h
  | cons a ms ih =>
    show (bulkIgnoreList ms (if a ∈ pre then pre else pre ++ [a])).Nodup
    apply ih
    split
    · exact h
    · next hnot =>
      simp [List.nodup_append, h, hnot]

/-- C5 counterexample: `/api/bulk/ignore` on `["A", "B"]` where "B" does
not exist in the library answers only `{ok, total}` — no per-item result
array and no NotFound — and adds the nonexistent "B" to the ignore list
exactly like "A" (the endpoint never checks existence). -/
theorem bulk_ignore_no_per_item_results_cex :
    bulkIgnore ["A", "B"] [] = (["A", "B"], { ok := true, total := 2 }) := by
  rfl

/-- C5 amended: items of a bulk request are processed independently.
`/api/bulk/ignore` ignores "A" whatever the rest of the batch or the prior
list contains — but returns only a count, no per-item outcomes, and adds
nonexistent names as well; the per-item result/error array of the claim is
the behaviour of `/api/bulk/touch_whisper`, which on `["A", "B"]` with
"B"'s artifact missing reports one success for "A" and one missing-artifact
error for "B". -/
theorem bulk_partial_success_amended :
    (∀ pre : List String,
      "A" ∈ (bulkIgnore ["A", "B"] pre).1 ∧
        "B" ∈ (bulkIgnore ["A", "B"] pre).1)
    ∧ bulkTouchWhisper ["A", "B"] (fun m => m == "A") =
      ([⟨"A", true, whisperRefPath "A"⟩],
        [⟨"B", "Whisper reference missing"⟩]) := by
  constructor
  · intro pre
    constructor
    · exact mem_bulkIgnoreList _ _ _ (Or.inl (by decide))
    · exact mem_bulkIgnoreList _ _ _ (Or.inl (by decide))
  · rfl

/-- C10: the persisted ignore list stays duplicate-free under
`/api/bulk/ignore`, and applying the same request a second time leaves
the list unchanged (idempotence). -/
theorem bulk_ignore_idempotent_nodup (movies pre : List String) :
    (pre.Nodup → (bulkIgnoreList movies pre).Nodup)
    ∧ bulkIgnoreList movies (bulkIgnoreList movies pre) =
      bulkIgnoreList movies pre := by
  constructor
  · exact nodup_bulkIgnoreList movies pre
  · exact bulkIgnoreList_eq_self movies _
      (fun x hx => mem_bulkIgnoreList _ _ _ (Or.inl hx))

/-- Witness for C10 at a concrete request over the empty persisted
list. -/
theorem bulk_ignore_idempotent_nodup_witness :
    (bulkIgnoreList ["A", "B", "A"] []).Nodup ∧
      bulkIgnoreList ["A", "B", "A"] (bulkIgnoreList ["A", "B", "A"] []) =
        bulkIgnoreList ["A", "B", "A"] [] :=
  ⟨(bulk_ignore_idempotent_nodup ["A", "B", "A"] []).1 (by decide),
    (bulk_ignore_idempotent_nodup ["A", "B", "A"] []).2⟩

/-- C9: `/api/library` returns a permutation of the stored records sorted
by `COALESCE(fi_mtime, 0)` in descending order; provided every stored
mtime is a (nonnegative) Unix timestamp, records lacking a `fi_mtime`
rank as oldest (their key is no larger than any other record's key). -/
theorem library_sorted_by_recency (rows : List MovieRow)
    (h : ∀ r ∈ rows, 0 ≤ sortKey r) :
    (libraryRows rows).Perm rows
    ∧ List.Sorted libOrder (libraryRows rows)
    ∧ ∀ a ∈ rows, a.fi_mtime = none → ∀ b ∈ rows, sortKey a ≤ sortKey b := by
  refine ⟨List.perm_insertionSort _ _, List.sorted_insertionSort _ _, ?_⟩
  intro a _ hnone b hb
  have ha : sortKey a = 0 := by simp [sortKey, hnone]
  rw [ha]
  exact h b hb

/-- Witness for C9 on a concrete two-record table. -/
theorem library_sorted_by_recency_witness :
    (libraryRows
      [⟨"A", 0, 0, 0, "unknown", "en", "p", false, false, some 10, none,
          false⟩,
        ⟨"B", 0, 0, 0, "unknown", "en", "p", false, false, none, none,
          false⟩]).Perm
      [⟨"A", 0, 0, 0, "unknown", "en", "p", false, false, some 10, none,
          false⟩,
        ⟨"B", 0, 0, 0, "unknown", "en", "p", false, false, none, none,
          false⟩]
    ∧ List.Sorted libOrder (libraryRows
      [⟨"A", 0, 0, 0, "unknown", "en", "p", false, false, some 10, none,
          false⟩,
        ⟨"B", 0, 0, 0, "unknown", "en", "p", false, false, none, none,
          false⟩])
    ∧ ∀ a ∈ [⟨"A", 0, 0, 0, "unknown", "en", "p", false, false, some 10,
          none, false⟩,
        (⟨"B", 0, 0, 0, "unknown", "en", "p", false, false, none, none,
          false⟩ : MovieRow)],
        a.fi_mtime = none →
        ∀ b ∈ [⟨"A", 0, 0, 0, "unknown", "en", "p", false, false, some 10,
            none, false⟩,
          (⟨"B", 0, 0, 0, "unknown", "en", "p", false, false, none, none,
            false⟩ : MovieRow)], sortKey a ≤ sortKey b :=
  library_sorted_by_recency
    [⟨"A", 0, 0, 0, "unknown", "en", "p", false, false, some 10, none,
        false⟩,
      ⟨"B", 0, 0, 0, "unknown", "en", "p", false, false, none, none,
        false⟩]
    (by decide)

/-- The dense point at `k = 0` of any interval is the interval's left
knot `(xs[i], ys[i])` exactly — the spline passes through every control
point. -/
lemma splinePoint_zero (x0 x1 a b c d : ℚ) :
    splinePoint x0 x1 a b c d 0 = (x0, a) := by
  simp [splinePoint]

/-- Unfolding of the dense loop on two or more knots: the head of the
emitted block is the left knot itself. -/
lemma denseLoop_cons_cons (b c d : ℕ → ℚ) (x0 x1 : ℚ) (xr : List ℚ)
    (y0 : ℚ) (yr : List ℚ) (i : ℕ) :
    denseLoop b c d (x0 :: x1 :: xr) (y0 :: yr) i =
      (x0, y0) ::
        (([1, 2, 3, 4, 5].map (splinePoint x0 x1 y0 (b i) (c i) (d i))) ++
          denseLoop b c d (x1 :: xr) yr (i + 1)) := by
  have hr : List.range STEPS = 0 :: [1, 2, 3, 4, 5] := rfl
  simp only [denseLoop, hr, List.map_cons, splinePoint_zero,
    List.cons_append]

/-- The original `(t, delta)` pairs survive as a sublist of the dense
loop output extended with the final sample. -/
lemma zip_sublist_denseLoop (b c d : ℕ → ℚ) (xs : List ℚ) :
    ∀ (ys : List ℚ) (i : ℕ) (p : ℚ × ℚ),
      xs.length = ys.length → xs.getLast? = some p.1 →
      ys.getLast? = some p.2 →
      (xs.zip ys).Sublist (denseLoop b c d xs ys i ++ [p]) := by
  induction xs with
  | nil => intro ys i p _ hx _; simp at hx
  | cons x0 xt ih =>
    intro ys i p hlen hx hy
    cases xt with
    | nil =>
      cases ys with
      | nil => simp at hlen
      | cons y0 yt =>
        cases yt with
        | nil =>
          simp only [List.getLast?_singleton, Option.some_inj] at hx hy
          have hp : p = (x0, y0) := Prod.ext hx.symm hy.symm
          subst hp
          simp [denseLoop]
        | cons y1 yt' => simp at hlen
    | cons x1 xt' =>
      cases ys with
      | nil => simp at hlen
      | cons y0 yt =>
        cases yt with
        | nil => simp at hlen
        | cons y1 yt' =>
          rw [denseLoop_cons_cons, List.zip_cons_cons, List.cons_append]
          apply List.Sublist.cons₂
          rw [List.append_assoc]
          have hlen' : (x1 :: xt').length = (y1 :: yt').length := by
            simpa using hlen
          have hx' : (x1 :: xt').getLast? = some p.1 := by
            rwa [List.getLast?_cons_cons] at hx
          have hy' : (y1 :: yt').getLast? = some p.2 := by
            rwa [List.getLast?_cons_cons] at hy
          have htail := ih (y1 :: yt') (i + 1) p hlen' hx' hy'
          have h2 := List.Sublist.append
            (List.nil_sublist
              ([1, 2, 3, 4, 5].map
                (splinePoint x0 x1 y0 (b i) (c i) (d i)))) htail
          rwa [List.nil_append] at h2

/-- Every dense abscissa of one interval stays inside that interval. -/
lemma splinePoint_fst_bounds (x0 x1 a b c d : ℚ) (k : ℕ) (hk : k < STEPS)
    (hx : x0 < x1) :
    x0 ≤ (splinePoint x0 x1 a b c d k).1 ∧
      (splinePoint x0 x1 a b c d k).1 ≤ x1 := by
  have hk5 : (k : ℚ) ≤ 5 := by
    have hk' : k ≤ 5 := Nat.lt_succ_iff.mp hk
    exact_mod_cast hk'
  have hk0 : (0 : ℚ) ≤ (k : ℚ) := Nat.cast_nonneg k
  have hd : 0 < x1 - x0 := sub_pos.mpr hx
  have hs0 : 0 ≤ (x1 - x0) / ((6 : ℕ) : ℚ) :=
    div_nonneg hd.le (by norm_num)
  have hmul : (k : ℚ) * ((x1 - x0) / ((6 : ℕ) : ℚ)) ≤
      5 * ((x1 - x0) / ((6 : ℕ) : ℚ)) :=
    mul_le_mul_of_nonneg_right hk5 hs0
  have hs6 : ((6 : ℕ) : ℚ) * ((x1 - x0) / ((6 : ℕ) : ℚ)) = x1 - x0 := by
    push_cast
    ring
  constructor
  · show x0 ≤ x0 + (k : ℚ) * ((x1 - x0) / ((STEPS : ℕ) : ℚ))
    have := mul_nonneg hk0 hs0
    unfold STEPS
    linarith
  · show x0 + (k : ℚ) * ((x1 - x0) / ((STEPS : ℕ) : ℚ)) ≤ x1
    unfold STEPS
    push_cast at hmul hs6 ⊢
    linarith

/-- Along a strictly increasing list, the head is at most the last
element. -/
lemma chain'_head_le_getLast (l : List ℚ) (hch : l.Chain' (· < ·))
    (hne : l ≠ []) : l.head hne ≤ l.getLast hne := by
  induction l with
  | nil => cases hne rfl
  | cons x0 t ih =>
    cases t with
    | nil => simp [List.getLast_singleton]
    | cons x1 t' =>
      have h01 : x0 < x1 := (List.chain'_cons.mp hch).1
      have htail := ih (List.chain'_cons.mp hch).2 (List.cons_ne_nil x1 t')
      rw [List.head_cons, List.getLast_cons (List.cons_ne_nil x1 t')]
      calc x0 ≤ x1 := h01.le
        _ = (x1 :: t').head (List.cons_ne_nil x1 t') := rfl
        _ ≤ (x1 :: t').getLast (List.cons_ne_nil x1 t') := htail

/-- Every abscissa emitted by the dense loop lies between the first and
the last knot. -/
lemma denseLoop_fst_bounds (b c d : ℕ → ℚ) (xs : List ℚ) :
    ∀ (ys : List ℚ) (i : ℕ) (hne : xs ≠ []) (hch : xs.Chain' (· < ·))
      (q : ℚ × ℚ), q ∈ denseLoop b c d xs ys i →
      xs.head hne ≤ q.1 ∧ q.1 ≤ xs.getLast hne := by
  induction xs with
  | nil => intro ys i hne; cases hne rfl
  | cons x0 xt ih =>
    intro ys i hne hch q hq
    cases xt with
    | nil =>
      cases ys with
      | nil => simp [denseLoop] at hq
      | cons y0 yt => simp [denseLoop] at hq
    | cons x1 xt' =>
      cases ys with
      | nil => simp [denseLoop] at hq
      | cons y0 yt =>
        have h01 : x0 < x1 := (List.chain'_cons.mp hch).1
        have hch' := (List.chain'_cons.mp hch).2
        have hne' : x1 :: xt' ≠ [] := List.cons_ne_nil x1 xt'
        have hlast : (x0 :: x1 :: xt').getLast hne =
            (x1 :: xt').getLast hne' := List.getLast_cons hne'
        have htail : x1 ≤ (x1 :: xt').getLast hne' :=
          chain'_head_le_getLast (x1 :: xt') hch' hne'
        rw [denseLoop_cons_cons] at hq
        rcases List.mem_cons.mp hq with rfl | hq'
        · constructor
          · simp
          · rw [hlast]
            exact le_trans h01.le htail
        · rcases List.mem_append.mp hq' with hb | hr
          · rcases List.mem_map.mp hb with ⟨k, hkmem, rfl⟩
            have hk6 : k < STEPS := by
              simp only [List.mem_cons, List.mem_singleton,
                List.not_mem_nil, or_false] at hkmem
              rcases hkmem with rfl | rfl | rfl | rfl | rfl <;> decide
            have hbd := splinePoint_fst_bounds x0 x1 y0
              (b i) (c i) (d i) k hk6 h01
            refine ⟨?_, ?_⟩
            · rw [List.head_cons]
              exact hbd.1
            · rw [hlast]
              exact le_trans hbd.2 htail
          · have hrec := ih (yt) (i + 1) hne' hch' q hr
            refine ⟨?_, ?_⟩
            · rw [List.head_cons]
              exact le_trans h01.le hrec.1
            · rw [hlast]
              exact hrec.2

/-- Zipping the two projections of a pair list restores the list. -/
lemma zip_map_fst_snd_pairs (l : List (ℚ × ℚ)) :
    (l.map Prod.fst).zip (l.map Prod.snd) = l := by
  induction l with
  | nil => rfl
  | cons p t ih => simp [ih]

/-- `nthQ` at index `length - 1` is the last element. -/
lemma nthQ_getLast (l : List ℚ) (hne : l ≠ []) :
    l.getLast? = some (nthQ l (l.length - 1)) := by
  have hlt : l.length - 1 < l.length := by
    cases l with
    | nil => cases hne rfl
    | cons a t => simp
  rw [List.getLast?_eq_getElem?, List.getElem?_eq_getElem hlt]
  simp [nthQ, List.getD_eq_getElem?_getD, List.getElem?_eq_getElem hlt]

/-- C7: for every valid sample sequence of length ≥ 3 (strictly
increasing `t`), `cubicSpline`'s dense output contains the original
`(t, delta)` pairs as an exact sublist — so at each original `t` the
emitted value is the original `delta`, exactly — and every emitted `t`
stays between the first and last sample's `t` (no extrapolation). -/
theorem smoother_reproduces_samples (xs ys : List ℚ)
    (hlen : xs.length = ys.length) (h3 : 3 ≤ xs.length)
    (hch : xs.Chain' (· < ·)) (hne : xs ≠ []) :
    (xs.zip ys).Sublist
      ((cubicSpline xs ys).1.zip (cubicSpline xs ys).2)
    ∧ ∀ x ∈ (cubicSpline xs ys).1,
        xs.head hne ≤ x ∧ x ≤ xs.getLast hne := by
  have hnlt : ¬ xs.length < 3 := not_lt.mpr h3
  have hyne : ys ≠ [] := by
    intro hy
    rw [hy] at hlen
    simp at hlen
    exact hne hlen
  have hcs : cubicSpline xs ys =
      ((denseLoop (bCoef xs ys) (cCoef xs ys) (dCoef xs ys) xs ys 0 ++
          [(nthQ xs (xs.length - 1), nthQ ys (xs.length - 1))]).map
        Prod.fst,
        (denseLoop (bCoef xs ys) (cCoef xs ys) (dCoef xs ys) xs ys 0 ++
          [(nthQ xs (xs.length - 1), nthQ ys (xs.length - 1))]).map
        Prod.snd) := by
    unfold cubicSpline
    rw [if_neg hnlt]
  have hxlast : xs.getLast? =
      some (nthQ xs (xs.length - 1)) := nthQ_getLast xs hne
  have hylast : ys.getLast? =
      some (nthQ ys (ys.length - 1)) := nthQ_getLast ys hyne
  rw [← hlen] at hylast
  constructor
  · rw [hcs]
    simp only [zip_map_fst_snd_pairs]
    exact zip_sublist_denseLoop (bCoef xs ys) (cCoef xs ys) (dCoef xs ys)
      xs ys 0 (nthQ xs (xs.length - 1), nthQ ys (xs.length - 1))
      hlen hxlast hylast
  · intro x hx
    rw [hcs] at hx
    rcases List.mem_map.mp hx with ⟨q, hq, rfl⟩
    rcases List.mem_append.mp hq with hqd | hqlast
    · exact denseLoop_fst_bounds (bCoef xs ys) (cCoef xs ys) (dCoef xs ys)
        xs ys 0 hne hch q hqd
    · have hqp : q = (nthQ xs (xs.length - 1), nthQ ys (xs.length - 1)) :=
        List.mem_singleton.mp hqlast
      have hql : q.1 = xs.getLast hne := by
        rw [hqp]
        have := hxlast
        rw [List.getLast?_eq_getLast xs hne] at this
        exact (Option.some_inj.mp this).symm
      rw [hql]
      exact ⟨chain'_head_le_getLast xs hch hne, le_refl _⟩

/-- Witness for C7 at a concrete three-sample sequence. -/
theorem smoother_reproduces_samples_witness :
    (([0, 1, 2] : List ℚ).zip ([5, 7, 6] : List ℚ)).Sublist
      ((cubicSpline [0, 1, 2] [5, 7, 6]).1.zip
        (cubicSpline [0, 1, 2] [5, 7, 6]).2)
    ∧ ∀ x ∈ (cubicSpline [0, 1, 2] [5, 7, 6]).1,
        ([0, 1, 2] : List ℚ).head (by simp) ≤ x ∧
          x ≤ ([0, 1, 2] : List ℚ).getLast (by simp) :=
  smoother_reproduces_samples [0, 1, 2] [5, 7, 6] rfl
    (by norm_num) (by norm_num) (by simp)

end SyncOrbit
